import Mathlib

set_option maxRecDepth 20000

/-!
Verification development for the `webserver` repository: a gin add-on
providing a per-request sequence counter, robot detection, a user-agent
classifier, an access logger and a regexp-based alternate router.

Source files embedded here: `webserver.go` (middlewares, alternate router,
startup/shutdown) and the user-agent parser (`DetectUA`, `uaList`).
-/

namespace Webserver

/-- Number of values of a Go `uint64` (the literal is 2 ^ 64); machine
arithmetic on the request counter is modelled as arithmetic modulo this
constant. -/
def U64 : Nat := 18446744073709551616

/-!
Character classes and a small regular-expression engine.

The repository compiles its patterns with the Go `regexp` package.  In its
default (non-POSIX) mode, Go returns the match that begins earliest in the
input and, among those, the one that a backtracking search trying
alternatives in order of preference (earlier alternative first, greedy
quantifiers longest first) would find first.  The engine below implements
exactly that backtracking search: `mtch` enumerates the
(end position, captures) pairs of the matches of a pattern at a given start
position, in preference order, and `reFind` scans start positions left to
right taking the first success.  Quantifiers in the repository patterns are
only ever applied to single-character classes, which is all this engine
supports (`star`/`plus` over a class).
-/

/-- Single-character classes occurring in the repository's patterns:
digits `\d` and `[0-9]`, the dot, explicit sets such as `[ /]`, and
case-insensitive literals (for the `(?i)` crawler patterns). -/
inductive CCls where
  | digit
  | any
  | oneOf (cs : List Char)
  | ciLit (c : Char)
  deriving Repr, DecidableEq

def CCls.test : CCls → Char → Bool
  | .digit, c => c.isDigit
  | .any, _ => true
  | .oneOf cs, c => cs.contains c
  | .ciLit a, c => c.toLower == a.toLower

/-- Abstract syntax of the regular expressions used by the repository:
empty word, single-character class, concatenation, alternation, greedy
star/plus over a class, `(?:...|)` optional, numbered capture group, and
the `$` end-of-input anchor. -/
inductive RE where
  | eps
  | cls (k : CCls)
  | seq (a b : RE)
  | alt (a b : RE)
  | star (k : CCls)
  | plus (k : CCls)
  | opt (a : RE)
  | grp (n : Nat) (a : RE)
  | eol
  deriving Repr, DecidableEq

/-- Capture list: entries (group, start, stop), most recently closed group
first; a group absent from the list did not take part in the match. -/
abbrev Caps := List (Nat × Nat × Nat)

/-- Length of the maximal run of characters of class `k` starting at `i`. -/
def kRun (s : List Char) (k : CCls) (i : Nat) : Nat :=
  ((s.drop i).takeWhile k.test).length

/-- End positions reachable by a greedy class quantifier started at `i`,
longest first (the preference order of a greedy quantifier). -/
def starStops (s : List Char) (k : CCls) (i : Nat) : List Nat :=
  ((List.range (kRun s k i + 1)).reverse).map (fun d => i + d)

/-- All matches of a pattern at start position `i` of `s`, as
(end position, captures) pairs in backtracking preference order. -/
def mtch (s : List Char) : RE → Nat → Caps → List (Nat × Caps)
  | .eps, i, cp => [(i, cp)]
  | .cls k, i, cp =>
      match s[i]? with
      | some c => if k.test c then [(i + 1, cp)] else []
      | none => []
  | .seq a b, i, cp => (mtch s a i cp).flatMap (fun r => mtch s b r.1 r.2)
  | .alt a b, i, cp => mtch s a i cp ++ mtch s b i cp
  | .star k, i, cp => (starStops s k i).map (fun j => (j, cp))
  | .plus k, i, cp =>
      match s[i]? with
      | some c =>
          if k.test c then (starStops s k (i + 1)).map (fun j => (j, cp))
          else []
      | none => []
  | .opt a, i, cp => mtch s a i cp ++ [(i, cp)]
  | .grp n a, i, cp => (mtch s a i cp).map (fun r => (r.1, (n, i, r.1) :: r.2))
  | .eol, i, cp => if i = s.length then [(i, cp)] else []

/-- Embedding of Go `Regexp.FindStringSubmatchIndex`: the leftmost match,
and among matches at the leftmost start the backtracking-first one.
Returns `none` exactly when the pattern does not match anywhere. -/
def reFind (re : RE) (s : List Char) : Option (Nat × Caps) :=
  (List.range (s.length + 1)).findSome? (fun i => (mtch s re i []).head?)

/-- Embedding of Go `Regexp.MatchString`. -/
def reMatchString (re : RE) (s : List Char) : Bool :=
  (reFind re s).isSome

/-- Embedding of Go `Regexp.ExpandString` applied to the template `$n`:
the text of capture group `n`, empty when the group did not participate
in the match. -/
def capText (s : List Char) (cp : Caps) (n : Nat) : List Char :=
  match cp.find? (fun t => t.1 == n) with
  | some t => (s.take t.2.2).drop t.2.1
  | none => []

/-- Value of a digit string (base 10). -/
def digitsVal (cs : List Char) : Nat :=
  cs.foldl (fun a c => a * 10 + (c.toNat - 48)) 0

/-- Embedding of `strconv.ParseUint(s, 10, 64)` as used in `DetectUA`: the
error is discarded (`ua.Major, _ = strconv.ParseUint(...)`), so a syntax
error (empty string or a non-digit) yields 0 and a range error yields the
maximal `uint64` (Go returns that value together with `ErrRange`). -/
def parseUint64 (cs : List Char) : Nat :=
  if cs ≠ [] ∧ cs.all Char.isDigit = true then
    if digitsVal cs < U64 then digitsVal cs else U64 - 1
  else 0

/-- Literal string as a regular expression (sequence of one-char classes). -/
def rlit (t : String) : RE :=
  t.data.foldr (fun c r => RE.seq (RE.cls (CCls.oneOf [c])) r) RE.eps

/-- Concatenation of a list of regular expressions. -/
def rcat (rs : List RE) : RE := rs.foldr RE.seq RE.eps

/-- The class expression `\d+`. -/
def rnum : RE := RE.plus CCls.digit

/-!
The user-agent parser (`DetectUA` and its pattern table `uaList`).
-/

structure UserAgent where
  Family : String
  Major : Nat
  Minor : Nat
  Patch : Nat
  deriving Repr, DecidableEq

def UA_CHROME_MOBILE : String := "Chrome Mobile"
def UA_CHROME : String := "Chrome"
def UA_YANDEX : String := "Yandex Browser"
def UA_MIUI : String := "MiuiBrowser"
def UA_WEBVIEW : String := "Chrome Mobile WebView"
def UA_CHROME_IOS : String := "Chrome Mobile iOS"
def UA_FIREFOX : String := "Firefox"
def UA_OTHER : String := "OTHER"

/-- Hand-compiled form of the Go pattern
`(MiuiBrowser)/(\d+)\.(\d+)\.(\d+)`. -/
def uaReMiui : RE :=
  rcat [RE.grp 1 (rlit "MiuiBrowser"), rlit "/", RE.grp 2 rnum, rlit ".",
    RE.grp 3 rnum, rlit ".", RE.grp 4 rnum]

/-- Hand-compiled form of the Go pattern
`(YaBrowser)/(\d+)\.(\d+)\.(\d+)`. -/
def uaReYandex : RE :=
  rcat [RE.grp 1 (rlit "YaBrowser"), rlit "/", RE.grp 2 rnum, rlit ".",
    RE.grp 3 rnum, rlit ".", RE.grp 4 rnum]

/-- Four-part version tail `/(\d+)\.(\d+)\.(\d+)\.(\d+)` shared by several
patterns (capture groups 2 to 5). -/
def uaReVer4 : RE :=
  rcat [rlit "/", RE.grp 2 rnum, rlit ".", RE.grp 3 rnum, rlit ".",
    RE.grp 4 rnum, rlit ".", RE.grp 5 rnum]

/-- Hand-compiled form of the Go pattern
`Version/.+(Chrome)/(\d+)\.(\d+)\.(\d+)\.(\d+)`. -/
def uaReWebview1 : RE :=
  rcat [rlit "Version/", RE.plus CCls.any, RE.grp 1 (rlit "Chrome"), uaReVer4]

/-- Hand-compiled form of the Go pattern
`; wv\).+(Chrome)/(\d+)\.(\d+)\.(\d+)\.(\d+)`. -/
def uaReWebview2 : RE :=
  rcat [rlit "; wv)", RE.plus CCls.any, RE.grp 1 (rlit "Chrome"), uaReVer4]

/-- Hand-compiled form of the Go pattern
`(CriOS)/(\d+)\.(\d+)\.(\d+)\.(\d+)`. -/
def uaReCrios : RE :=
  rcat [RE.grp 1 (rlit "CriOS"), uaReVer4]

/-- Hand-compiled form of the Go pattern
`(Chrome)/(\d+)\.(\d+)\.(\d+)\.(\d+) Mobile(?:[ /]|$)`. -/
def uaReChromeMobile : RE :=
  rcat [RE.grp 1 (rlit "Chrome"), uaReVer4, rlit " Mobile",
    RE.alt (RE.cls (CCls.oneOf [' ', '/'])) RE.eol]

/-- Hand-compiled form of the Go pattern
`(Chromium|Chrome)/(\d+)\.(\d+)(?:\.(\d+)|)(?:\.(\d+)|)`. -/
def uaReChrome : RE :=
  rcat [RE.grp 1 (RE.alt (rlit "Chromium") (rlit "Chrome")), rlit "/",
    RE.grp 2 rnum, rlit ".", RE.grp 3 rnum,
    RE.opt (rcat [rlit ".", RE.grp 4 rnum]),
    RE.opt (rcat [rlit ".", RE.grp 5 rnum])]

/-- Hand-compiled form of the Go pattern `(Firefox)/(\d+)\.(\d+)`. -/
def uaReFirefox : RE :=
  rcat [RE.grp 1 (rlit "Firefox"), rlit "/", RE.grp 2 rnum, rlit ".",
    RE.grp 3 rnum]

/-- The pattern table `uaList`, in source order: family name paired with the
compiled pattern.  Note that `DetectUA` below never reads the family
component; it is kept to mirror the source table faithfully. -/
def uaList : List (String × RE) :=
  [(UA_MIUI, uaReMiui),
   (UA_YANDEX, uaReYandex),
   (UA_WEBVIEW, uaReWebview1),
   (UA_WEBVIEW, uaReWebview2),
   (UA_CHROME_IOS, uaReCrios),
   (UA_CHROME_MOBILE, uaReChromeMobile),
   (UA_CHROME, uaReChrome),
   (UA_FIREFOX, uaReFirefox)]

/-- Embedding of `DetectUA`: iterate the compiled patterns in table order;
on the first pattern with a match, build the record from the match captures
(`ExpandString` with templates `$1`..`$4` followed by `ParseUint` whose
error is discarded); if no pattern matches, return the OTHER sentinel.
Note the source sets `Family` from capture group `$1` of the winning
pattern, not from the family column of `uaList`. -/
def DetectUA (UAstring : String) : UserAgent :=
  let s := UAstring.data
  match uaList.findSome? (fun p => (reFind p.2 s).map (fun m => m.2)) with
  | some caps =>
      { Family := String.mk (capText s caps 1)
        Major := parseUint64 (capText s caps 2)
        Minor := parseUint64 (capText s caps 3)
        Patch := parseUint64 (capText s caps 4) }
  | none => { Family := UA_OTHER, Major := 0, Minor := 0, Patch := 0 }

/-!
Model of the gin request context and of the middleware chain.

A gin middleware receives the context, may read and write the per-request
key/value bag (`c.Set` / `c.Get`), and invokes the rest of the chain with
`c.Next()`.  We model a middleware as a function taking the rest of the
chain (`next`) and the request state; time is modelled by an abstract
millisecond clock in the state that downstream handlers may advance.
-/

/-- Values stored in the gin context key/value bag (`c.Set` stores a value
of any dynamic type; only booleans and `uint64` occur in this code base, a
third constructor models any other dynamic type). -/
inductive GinVal where
  | bool (b : Bool)
  | uint64 (n : Nat)
  | str (s : String)
  deriving Repr, DecidableEq

abbrev Keys := List (String × GinVal)

/-- Embedding of `c.Get(key)` on the key/value bag. -/
def getKey (ks : Keys) (k : String) : Option GinVal :=
  (ks.find? (fun p => p.1 == k)).map (fun p => p.2)

/-- Embedding of `c.Set(key, v)`: map assignment (replace any previous
binding of the key). -/
def setKey (ks : Keys) (k : String) (v : GinVal) : Keys :=
  (k, v) :: ks.eraseP (fun p => p.1 == k)

/-- The relevant read-only data of `c.Request` (plus `c.ClientIP()`). -/
structure Request where
  urlPath : String
  rawQuery : String
  requestURI : String
  method : String
  userAgent : String
  xRobotHeader : String
  clientIp : String
  deriving Repr, DecidableEq

/-- One access-log record as emitted by `httpLogger` (field per `zerolog`
key, in source order). -/
structure LogRecord where
  latency : Nat
  clientIp : String
  path : String
  method : String
  statusCode : Nat
  bodySize : Int
  requestID : Nat
  deriving Repr, DecidableEq

/-- Per-request state threaded through the middleware chain: the key/value
bag, the request, the response writer status and size, an abstract
millisecond clock (`time.Now()` reads it; handlers may advance it) and the
list of access-log records emitted so far. -/
structure ReqState where
  keys : Keys
  req : Request
  wStatus : Nat
  wSize : Int
  clock : Nat
  logs : List LogRecord
  deriving Repr, DecidableEq

/-- A middleware: a function of the rest of the chain and the state. -/
abbrev MW := (ReqState → ReqState) → ReqState → ReqState

/-- The `requestID` a log record carries: the value found under the
`requestID` key if it is a `uint64`, and 0 when the key is absent or holds
a value of another dynamic type (the failed type assertion branch). -/
def loggedRequestID (ks : Keys) : Nat :=
  match getKey ks "requestID" with
  | some (GinVal.uint64 n) => n
  | some _ => 0
  | none => 0

/-- Embedding of the closure returned by `httpLogger`: capture the start
time, the path and the raw query, read the `requestID` key, run the rest of
the chain, then either return silently when the `httpNoLogging` key exists
or emit exactly one record. -/
def httpLogger (next : ReqState → ReqState) (st : ReqState) : ReqState :=
  let start := st.clock
  let path := st.req.urlPath
  let raw := st.req.rawQuery
  let requestID := loggedRequestID st.keys
  let st' := next st
  let path' := if raw ≠ "" then path ++ "?" ++ raw else path
  if (getKey st'.keys "httpNoLogging").isSome then st'
  else
    { st' with logs := st'.logs ++
        [{ latency := st'.clock - start
           clientIp := st'.req.clientIp
           path := path'
           method := st'.req.method
           statusCode := st'.wStatus
           bodySize := st'.wSize
           requestID := requestID }] }

/-- The crawler name list `robotsUserAgent` from the source. -/
def robotsUserAgent : List String :=
  ["facebook", "WhatsApp", "Viber", "TelegramBot", "Twitter", "Instagram",
   "Wget"]

/-- Hand-compiled form of the Go pattern `(?i)` ++ name for a literal
crawler name: the sequence of its characters as case-insensitive
one-character classes. -/
def reNameCI (cs : List Char) : RE :=
  cs.foldr (fun c r => RE.seq (RE.cls (CCls.ciLit c)) r) RE.eps

/-- Embedding of the closure returned by `robotsDetect`: if the `X-Robot`
header is non-empty set `robot` to true; otherwise set it to false and then
to true on every crawler pattern that matches the user-agent; finally run
the rest of the chain. -/
def robotsDetect (names : List String) (next : ReqState → ReqState)
    (st : ReqState) : ReqState :=
  let st' :=
    if st.req.xRobotHeader ≠ "" then
      { st with keys := setKey st.keys "robot" (GinVal.bool true) }
    else
      names.foldl
        (fun acc name =>
          if reMatchString (reNameCI name.data) st.req.userAgent.data then
            { acc with keys := setKey acc.keys "robot" (GinVal.bool true) }
          else acc)
        { st with keys := setKey st.keys "robot" (GinVal.bool false) }
  next st'

/-!
The request counter middleware installed by `NewWebServer`.

The counter `requestCounter` is a `uint64` field of the server, initialized
to zero; for each request the middleware, inside the state lock, increments
it and stores the new value under the `requestID` context key.  Because the
increment and the read happen under one lock acquisition, concurrent
requests observe the same values as some sequential order of requests, so
the counter is modelled sequentially.
-/

/-- Counter value stored for the next request after state `rc`. -/
def counterNext (rc : Nat) : Nat := (rc + 1) % U64

/-- Sequence of `requestID` values assigned to `n` consecutive requests
starting from counter state `rc`. -/
def serveSeq : Nat → Nat → List Nat
  | _, 0 => []
  | rc, n + 1 => counterNext rc :: serveSeq (counterNext rc) n

/-- Sequence of `requestID` values assigned to the first `n` requests of a
freshly constructed server (counter initialized to zero). -/
def requestIDs (n : Nat) : List Nat := serveSeq 0 n

/-!
The alternate (regexp) router: route registration and dispatch.
-/

/-- Observable actions of a dispatched alternate route: running one of the
service middlewares or one of the handlers, identified by label. -/
inductive Action where
  | middleware (i : Nat)
  | handler (i : Nat)
  deriving Repr, DecidableEq

/-- A route supplied by a service (`WebRoute` in the source); the pattern
is kept in compiled form, handlers and middlewares are labels. -/
structure WebRoute where
  Path : RE
  Method : String
  Handler : Nat
  deriving Repr, DecidableEq

/-- The alternate-route related data of a registered service. -/
structure WebService where
  altRoutes : List WebRoute
  middlewares : List Nat
  deriving Repr, DecidableEq

/-- An entry of `w.altRoutes` (`iRoute` in the source): compiled pattern,
stored method, and the action sequence its wrapped handler closure runs
when invoked. -/
structure iRoute where
  Path : RE
  Method : String
  run : List Action
  deriving Repr, DecidableEq

/-- Embedding of the alternate-route half of `ServiceRegister` for one
variadic call: for each service `s` and each of its alternate routes the
source appends an `iRoute` whose pattern and method are evaluated
immediately, but whose handler is a closure that runs each of
`s.Middlewares()` and then `route.Handler`.
The closure reads the Go range variables `s` and `route` when the request
is dispatched, i.e. after both loops have finished (the repository has no
`go.mod` declaring Go 1.22, so range variables are per-loop, not
per-iteration): `s` then holds the last service of the call and `route`
the last alternate route of the service the entry was built for.  The
`run` field records the actions the closure performs at dispatch time. -/
def ServiceRegister (services : List WebService) : List iRoute :=
  let sFinal := services.getLast?
  services.flatMap (fun s =>
    let routeFinal := s.altRoutes.getLast?
    s.altRoutes.map (fun route =>
      { Path := route.Path
        Method := route.Method
        run := ((sFinal.map WebService.middlewares).getD []).map
                 Action.middleware
               ++ [Action.handler
                    ((routeFinal.map WebRoute.Handler).getD 0)] }))

/-- Embedding of `AltRouter`: scan the registered routes in order; on the
first whose pattern matches the raw request URI, invoke its stored handler
closure and return; if none matches, do nothing.  The result is the list
of actions performed. -/
def AltRouter (routes : List iRoute) (req : Request) : List Action :=
  match routes.find? (fun route =>
      reMatchString route.Path req.requestURI.data) with
  | some route => route.run
  | none => []

/-!
Background startup and shutdown (`RunBg`, `Shutdown`).
-/

/-- Errors surfaced by the net/http collaborators. -/
inductive GoError where
  | errServerClosed
  | bindError (addr : String)
  | wrapped (msg : String) (inner : GoError)
  deriving Repr, DecidableEq

/-- The goroutine body of `RunBg`: `ListenAndServe`'s return value is sent
on the startup-error channel unless it is `http.ErrServerClosed`. -/
def listenerReport (e : GoError) : Option GoError :=
  if e = GoError.errServerClosed then none else some e

/-- Embedding of the tail of `RunBg` after the `select`: the argument is
`none` when the initialization timeout fired first and `some e` when the
startup-error channel delivered `e` first (the timing race itself is kept
abstract as this parameter).  A received error is wrapped with
`fmt.Errorf("can't start web server: %w", err)`; otherwise `nil` is
returned. -/
def RunBg (selected : Option GoError) : Option GoError :=
  match selected with
  | some e => some (GoError.wrapped "can't start web server" e)
  | none => none

/-- Embedding of `Shutdown`: when the server was started in background
mode (`w.srv != nil`) the graceful shutdown runs and its error is assigned
to `err`, but the function body ends with a literal `return nil`, so the
assigned error is discarded. -/
def Shutdown (srvStarted : Bool) (gracefulErr : Option GoError) :
    Option GoError :=
  if srvStarted then
    let _err := gracefulErr
    none
  else none

/-!
Claim-side vocabulary and concrete inputs used by the theorems below.
-/

/-- Character-wise lower casing, the case folding relevant to the ASCII
crawler names compiled with the `(?i)` flag. -/
def lowerL (cs : List Char) : List Char := cs.map Char.toLower

/-- Case-insensitive comparison of a pattern against the front of a
string. -/
def ciHeadMatch : List Char → List Char → Bool
  | [], _ => true
  | _ :: _, [] => false
  | c :: cs, d :: ds => (d.toLower == c.toLower) && ciHeadMatch cs ds

/-- Hand-compiled form of the route pattern `/articles/.*`. -/
def reArticlesAll : RE := RE.seq (rlit "/articles/") (RE.star CCls.any)

/-- Hand-compiled form of the route pattern `/articles/[0-9]+`. -/
def reArticlesNum : RE := RE.seq (rlit "/articles/") (RE.plus CCls.digit)

/-- A service registering the alternate routes `/articles/.*` (handler 1)
and then `/articles/[0-9]+` (handler 2), both for GET. -/
def articlesService : WebService :=
  { altRoutes :=
      [{ Path := reArticlesAll, Method := "GET", Handler := 1 },
       { Path := reArticlesNum, Method := "GET", Handler := 2 }]
    middlewares := [] }

/-- A service with a single GET alternate route (handler 7) and one
middleware (label 5). -/
def numService : WebService :=
  { altRoutes := [{ Path := reArticlesNum, Method := "GET", Handler := 7 }]
    middlewares := [5] }

/-- A plain request for the given method and URI. -/
def requestFor (method uri : String) : Request :=
  { urlPath := uri, rawQuery := "", requestURI := uri, method := method,
    userAgent := "", xRobotHeader := "", clientIp := "" }

def sampleRequest : Request :=
  { urlPath := "/", rawQuery := "", requestURI := "/", method := "GET",
    userAgent := "curl/7.64", xRobotHeader := "", clientIp := "10.0.0.1" }

def sampleState : ReqState :=
  { keys := [], req := sampleRequest, wStatus := 200, wSize := 5,
    clock := 0, logs := [] }

/-- A request state whose user-agent is the TelegramBot example and which
carries no trust header. -/
def telegramState : ReqState :=
  { sampleState with
      req := { sampleRequest with
                 userAgent := "TelegramBot (like TwitterBot)" } }

/-- A downstream handler that sets the `httpNoLogging` key to the value
`false` (the key exists, its value is falsy). -/
def suppressingHandler (st : ReqState) : ReqState :=
  { st with keys := setKey st.keys "httpNoLogging" (GinVal.bool false) }

/-- The user-agent string of the Chrome-Mobile classification example. -/
def chromeMobileUA : String :=
  "Mozilla/5.0 (Linux; Android 10; SM-G981B) AppleWebKit/537.36 (KHTML, like Gecko) Chrome/91.0.4472.124 Mobile Safari/537.36"

/-!
Theorems.
-/

/-- Closed form of the sequence of assigned `requestID` values. -/
theorem serveSeq_eq_map (n : Nat) : ∀ rc : Nat,
    serveSeq rc n = (List.range n).map (fun k => (rc + k + 1) % U64) := by
  induction n with
  | zero => intro rc; simp [serveSeq]
  | succ m ih =>
      intro rc
      show counterNext rc :: serveSeq (counterNext rc) m = _
      rw [ih (counterNext rc), List.range_succ_eq_map, List.map_cons,
        List.map_map]
      refine congrArg₂ List.cons (by simp [counterNext]) ?_
      apply List.map_congr_left
      intro k _
      show (counterNext rc + k + 1) % U64 = (rc + (k + 1) + 1) % U64
      simp only [counterNext, U64]
      omega

/-- C1 (amended): as long as fewer than 2 ^ 64 requests have been served,
the sequence of `requestID` values assigned by one server instance to N
requests is exactly the list [1, ..., N]: the set {1, ..., N} with no
duplicates and no gaps, strictly increasing, assigned once per request, the
first request receiving 1.  (The counter is a `uint64`, so the sequence
wraps after 2 ^ 64 requests.) -/
theorem c1_request_ids {N : Nat} (hN : N < U64) :
    requestIDs N = List.range' 1 N ∧
    (∀ k, k ∈ requestIDs N ↔ 1 ≤ k ∧ k ≤ N) ∧
    (requestIDs N).Nodup ∧
    (requestIDs N).Pairwise (· < ·) ∧
    (requestIDs N).length = N ∧
    (requestIDs N).head? = (if N = 0 then none else some 1) := by
  have hmain : requestIDs N = List.range' 1 N := by
    unfold requestIDs
    rw [serveSeq_eq_map, List.range'_eq_map_range]
    apply List.map_congr_left
    intro k hk
    have hkN : k < N := List.mem_range.mp hk
    have hlt : 0 + k + 1 < U64 := by omega
    rw [Nat.mod_eq_of_lt hlt]
    omega
  rw [hmain]
  refine ⟨rfl, ?_, List.nodup_range' 1 N, List.pairwise_lt_range' 1 N,
    List.length_range' 1 1 N, List.head?_range' N⟩
  intro k
  rw [List.mem_range'_1]
  omega

/-- Witness for `c1_request_ids` at N = 3. -/
theorem c1_request_ids_witness :
    requestIDs 3 = List.range' 1 3 ∧ (requestIDs 3).Nodup :=
  ⟨(c1_request_ids (N := 3) (by decide)).1,
   (c1_request_ids (N := 3) (by decide)).2.2.1⟩

/-- C1 (counterexample): after exactly 2 ^ 64 requests the `uint64`
counter has wrapped, so the value 0 has been assigned as a `requestID`,
yet 0 is not an element of {1, ..., N}; the set of assigned sequence
numbers is therefore not {1, ..., N} for N = 2 ^ 64. -/
theorem c1_counterexample :
    0 ∈ requestIDs U64 ∧ 0 ∉ List.range' 1 U64 := by
  constructor
  · unfold requestIDs
    rw [serveSeq_eq_map]
    refine List.mem_map.mpr ⟨U64 - 1, List.mem_range.mpr ?_, ?_⟩
    · simp [U64]
    · simp only [U64]
  · intro h
    have h1 := (List.mem_range'_1).mp h
    omega

/-- C9: `Shutdown` returns nil for every combination of server state and
graceful-shutdown outcome: when the server was never started in background
mode nothing runs, and when the underlying graceful shutdown reports an
error that error is assigned and then discarded by the final
`return nil`. -/
theorem c9_shutdown_returns_nil :
    ∀ (srvStarted : Bool) (gracefulErr : Option GoError),
      Shutdown srvStarted gracefulErr = none := by
  intro b g
  cases b <;> rfl

/-- Witness for `c9_shutdown_returns_nil`: a started server whose graceful
shutdown failed still reports nil. -/
theorem c9_shutdown_witness :
    Shutdown true (some (GoError.bindError "context deadline exceeded")) =
      none :=
  c9_shutdown_returns_nil true
    (some (GoError.bindError "context deadline exceeded"))

/-- C8: when the listener reports a startup fault other than
`http.ErrServerClosed` (for example a bind error on an already-bound port)
before the initialization timeout, `RunBg` returns it wrapped in
"can't start web server: ...", which is non-nil and therefore
distinguishable from the nil result of a fault-free timeout return. -/
theorem c8_runbg_startup_fault (e : GoError)
    (he : e ≠ GoError.errServerClosed) :
    RunBg (listenerReport e) =
      some (GoError.wrapped "can't start web server" e) ∧
    RunBg none = none ∧
    RunBg (listenerReport e) ≠ RunBg none := by
  have hrep : listenerReport e = some e := if_neg he
  refine ⟨by rw [hrep]; rfl, rfl, by rw [hrep]; simp [RunBg]⟩

/-- Witness for `c8_runbg_startup_fault` at a concrete bind error. -/
theorem c8_runbg_witness :
    RunBg (listenerReport
        (GoError.bindError "listen tcp :9092: bind: address already in use")) =
      some (GoError.wrapped "can't start web server"
        (GoError.bindError "listen tcp :9092: bind: address already in use")) :=
  (c8_runbg_startup_fault
    (GoError.bindError "listen tcp :9092: bind: address already in use")
    (by decide)).1

/-- A `findSome?` over a list succeeds exactly when some element
succeeds. -/
theorem findSome?_isSome {α β : Type} (f : α → Option β) :
    ∀ l : List α, (l.findSome? f).isSome = l.any (fun x => (f x).isSome) := by
  intro l
  induction l with
  | nil => rfl
  | cons a l ih =>
      rw [List.findSome?_cons]
      cases h : f a with
      | some b => simp [h]
      | none => simp [h, ih]

/-- Matches of a compiled case-insensitive literal at a given position:
exactly one when the literal matches the front of the remaining input,
none otherwise. -/
theorem mtch_reNameCI (s : List Char) : ∀ (cs : List Char) (i : Nat)
    (cp : Caps),
    mtch s (reNameCI cs) i cp =
      if ciHeadMatch cs (s.drop i) then [(i + cs.length, cp)] else [] := by
  intro cs
  induction cs with
  | nil => intro i cp; simp [reNameCI, mtch, ciHeadMatch]
  | cons c cs ih =>
      intro i cp
      show mtch s (RE.seq (RE.cls (CCls.ciLit c)) (reNameCI cs)) i cp = _
      rw [mtch]
      cases hg : s[i]? with
      | none =>
          have hd : s.drop i = [] :=
            List.drop_eq_nil_iff.mpr (List.getElem?_eq_none_iff.mp hg)
          simp [mtch, hg, hd, ciHeadMatch]
      | some d =>
          obtain ⟨hlt, hgd⟩ := List.getElem?_eq_some_iff.mp hg
          have hd : s.drop i = d :: s.drop (i + 1) := by
            rw [List.drop_eq_getElem_cons hlt, hgd]
          rw [hd]
          show ((mtch s (RE.cls (CCls.ciLit c)) i cp).flatMap _) = _
          rw [mtch, hg]
          show (if (d.toLower == c.toLower) = true then [(i + 1, cp)]
              else []).flatMap _ = _
          cases hc : d.toLower == c.toLower with
          | false => simp [ciHeadMatch, hc]
          | true =>
              rw [if_pos rfl]
              show mtch s (reNameCI cs) (i + 1) cp ++ [] = _
              rw [List.append_nil, ih (i + 1) cp]
              have harith : i + 1 + cs.length = i + (c :: cs).length := by
                simp [List.length_cons]
                omega
              simp only [ciHeadMatch, hc, Bool.true_and, harith]

/-- The case-insensitive front match holds exactly when the lower-cased
literal is a lower-cased front segment of the input. -/
theorem ciHeadMatch_iff : ∀ cs l : List Char,
    ciHeadMatch cs l = true ↔ ∃ u, lowerL l = lowerL cs ++ u := by
  intro cs
  induction cs with
  | nil => intro l; simp [ciHeadMatch, lowerL]
  | cons c cs ih =>
      intro l
      cases l with
      | nil =>
          simp [ciHeadMatch, lowerL]
      | cons d ds =>
          simp only [ciHeadMatch, lowerL, List.map_cons, List.cons_append,
            Bool.and_eq_true, beq_iff_eq, List.cons.injEq]
          constructor
          · rintro ⟨h1, h2⟩
            obtain ⟨u, hu⟩ := (ih ds).mp h2
            exact ⟨u, h1, by simpa [lowerL] using hu⟩
          · rintro ⟨u, h1, h2⟩
            exact ⟨h1, (ih ds).mpr ⟨u, by simpa [lowerL] using h2⟩⟩

/-- Bridge between the compiled `(?i)` literal pattern and the
case-insensitive-substring reading: `MatchString` on the compiled crawler
name succeeds exactly when the lower-cased name occurs as a contiguous
segment of the lower-cased user-agent. -/
theorem reMatchString_reNameCI (nm s : List Char) :
    reMatchString (reNameCI nm) s = true ↔
      ∃ t u, lowerL s = t ++ lowerL nm ++ u := by
  unfold reMatchString reFind
  rw [findSome?_isSome, List.any_eq_true]
  constructor
  · rintro ⟨i, _, hsome⟩
    rw [mtch_reNameCI] at hsome
    cases hb : ciHeadMatch nm (s.drop i) with
    | false => rw [hb] at hsome; simp at hsome
    | true =>
        obtain ⟨u, hu⟩ := (ciHeadMatch_iff nm (s.drop i)).mp hb
        refine ⟨lowerL (s.take i), u, ?_⟩
        calc lowerL s = lowerL (s.take i ++ s.drop i) := by
              rw [List.take_append_drop]
          _ = lowerL (s.take i) ++ lowerL (s.drop i) := by
              simp [lowerL]
          _ = lowerL (s.take i) ++ (lowerL nm ++ u) := by rw [hu]
          _ = lowerL (s.take i) ++ lowerL nm ++ u := by
              rw [List.append_assoc]
  · rintro ⟨t, u, hdec⟩
    refine ⟨t.length, ?_, ?_⟩
    · rw [List.mem_range]
      have hls : (lowerL s).length = s.length := by simp [lowerL]
      have : (t ++ lowerL nm ++ u).length = s.length := by rw [← hdec, hls]
      simp only [List.length_append] at this
      omega
    · rw [mtch_reNameCI]
      have hb : ciHeadMatch nm (s.drop t.length) = true := by
        apply (ciHeadMatch_iff nm (s.drop t.length)).mpr
        refine ⟨u, ?_⟩
        have hmd : lowerL (s.drop t.length) = (lowerL s).drop t.length := by
          simp [lowerL]
        rw [hmd, hdec, List.append_assoc, List.drop_left]
      rw [hb]
      simp

/-- Setting the same context key twice keeps only the second value. -/
theorem setKey_setKey (ks : Keys) (k : String) (v v' : GinVal) :
    setKey (setKey ks k v) k v' = setKey ks k v' := by
  simp [setKey]

/-- The crawler loop of `robotsDetect`, folded over any name list: the
`robot` key ends up holding the disjunction of the initial value and the
per-name match results. -/
theorem robots_foldl (p : String → Bool) :
    ∀ (names : List String) (st : ReqState) (ks : Keys) (b : Bool),
    names.foldl
      (fun acc name =>
        if p name then
          { acc with keys := setKey acc.keys "robot" (GinVal.bool true) }
        else acc)
      { st with keys := setKey ks "robot" (GinVal.bool b) } =
    { st with keys := setKey ks "robot" (GinVal.bool (b || names.any p)) } := by
  intro names
  induction names with
  | nil => intro st ks b; simp
  | cons n ns ih =>
      intro st ks b
      simp only [List.foldl_cons, List.any_cons]
      cases hp : p n with
      | false => rw [if_neg (by simp [hp]), ih st ks b]; simp [hp]
      | true =>
          rw [if_pos (by simp [hp])]
          have hcol :
              setKey (setKey ks "robot" (GinVal.bool b)) "robot"
                  (GinVal.bool true) =
                setKey ks "robot" (GinVal.bool true) :=
            setKey_setKey ks "robot" (GinVal.bool b) (GinVal.bool true)
          show ns.foldl _
              { st with keys :=
                  (setKey (setKey ks "robot" (GinVal.bool b)) "robot"
                    (GinVal.bool true)) } = _
          rw [hcol, ih st ks true]
          simp [hp]

/-- C4: the `robot` context flag is written before the downstream chain
runs, and its value follows the decision order: a non-empty `X-Robot`
header forces true; otherwise the flag is true exactly when some
configured crawler name matches the user-agent, where matching a compiled
`(?i)` name is exactly case-insensitive substring occurrence (second
conjunct); in particular the TelegramBot example with no trust header is
classified as robot (third conjunct). -/
theorem c4_robot_flag :
    (∀ (next : ReqState → ReqState) (st : ReqState),
       robotsDetect robotsUserAgent next st =
         next { st with keys := setKey st.keys "robot" (GinVal.bool
           (if st.req.xRobotHeader ≠ "" then true
            else robotsUserAgent.any (fun n =>
              reMatchString (reNameCI n.data) st.req.userAgent.data))) }) ∧
    (∀ nm ua : List Char,
       reMatchString (reNameCI nm) ua = true ↔
         ∃ t u, lowerL ua = t ++ lowerL nm ++ u) ∧
    getKey ((robotsDetect robotsUserAgent (fun x => x) telegramState).keys)
        "robot" = some (GinVal.bool true) := by
  refine ⟨?_, reMatchString_reNameCI, by decide⟩
  intro next st
  unfold robotsDetect
  by_cases hx : st.req.xRobotHeader ≠ ""
  · rw [if_pos hx, if_pos hx]
  · rw [if_neg hx, if_neg hx,
      robots_foldl (fun name =>
        reMatchString (reNameCI name.data) st.req.userAgent.data)
        robotsUserAgent st st.keys false]
    simp

/-- Witness for `c4_robot_flag`: the concrete TelegramBot request is
flagged as robot. -/
theorem c4_robot_witness :
    getKey ((robotsDetect robotsUserAgent (fun x => x) telegramState).keys)
        "robot" = some (GinVal.bool true) :=
  c4_robot_flag.2.2

/-- C5: after the downstream chain completes, the logger emits exactly one
access-log record when the `httpNoLogging` key is absent — containing the
elapsed clock delta, the client address, the path with "?" and the query
string appended exactly when the query string is non-empty, the method,
the response status, the response byte count, and the request's sequence
number as read from the `requestID` key — and exactly zero records when
any downstream handler set the key. -/
theorem c5_logger_single_record :
    ∀ (next : ReqState → ReqState) (st : ReqState),
      (getKey (next st).keys "httpNoLogging" = none →
        (httpLogger next st).logs = (next st).logs ++
          [{ latency := (next st).clock - st.clock
             clientIp := (next st).req.clientIp
             path := if st.req.rawQuery ≠ "" then
                 st.req.urlPath ++ "?" ++ st.req.rawQuery
               else st.req.urlPath
             method := (next st).req.method
             statusCode := (next st).wStatus
             bodySize := (next st).wSize
             requestID := loggedRequestID st.keys }]) ∧
      (∀ v, getKey (next st).keys "httpNoLogging" = some v →
        (httpLogger next st).logs = (next st).logs) := by
  intro next st
  constructor
  · intro h
    simp [httpLogger, h]
  · intro v h
    simp [httpLogger, h]

/-- Witness for `c5_logger_single_record`: a trivial downstream handler
leaves the key unset, so exactly one record with the concrete field values
is appended. -/
theorem c5_logger_witness :
    (httpLogger (fun x => x) sampleState).logs =
      [{ latency := 0, clientIp := "10.0.0.1", path := "/", method := "GET",
         statusCode := 200, bodySize := 5, requestID := 0 }] := by
  have h := (c5_logger_single_record (fun x => x) sampleState).1 rfl
  simpa [sampleState, sampleRequest, loggedRequestID, getKey] using h

/-- C10: suppression is keyed on the existence of `httpNoLogging`, not on
its value: whenever a downstream handler has set the key to any value
whatsoever, the logger emits nothing (the state is returned untouched). -/
theorem c10_suppress_on_key_existence :
    ∀ (next : ReqState → ReqState) (st : ReqState) (v : GinVal),
      getKey (next st).keys "httpNoLogging" = some v →
        httpLogger next st = next st := by
  intro next st v h
  simp [httpLogger, h]

/-- Witness for `c10_suppress_on_key_existence`: a handler that sets
`httpNoLogging` to the value `false` still suppresses the record. -/
theorem c10_suppress_witness :
    httpLogger suppressingHandler sampleState =
      suppressingHandler sampleState :=
  c10_suppress_on_key_existence suppressingHandler sampleState
    (GinVal.bool false) rfl

/-- C2 (evaluation at the failing input): the request `/articles/42` is
matched by the first registered entry (pattern `/articles/.*`), but the
dispatched closure runs handler 2 — the handler of the service's
last-registered alternate route — instead of the first entry's own
handler 1, because the closure built by `ServiceRegister` reads the Go
range variable `route` after the registration loop has finished. -/
theorem c2_dispatch_runs_last_handler :
    reMatchString reArticlesAll
        (requestFor "GET" "/articles/42").requestURI.data = true ∧
    AltRouter (ServiceRegister [articlesService])
        (requestFor "GET" "/articles/42") = [Action.handler 2] ∧
    [Action.handler 2] ≠ [Action.handler 1] :=
  ⟨by decide, by decide, by decide⟩

/-- C3 (evaluation at the failing input): on the canonical Chrome Mobile
user-agent string, `DetectUA` returns the numeric triple 91 / 0 / 4472
claimed, but its family is the text of capture group 1 of the matched
pattern — "Chrome" — not the `uaList` family "Chrome Mobile" of that
pattern, which `DetectUA` never reads. -/
theorem c3_detectua_family_is_capture :
    DetectUA chromeMobileUA =
      { Family := "Chrome", Major := 91, Minor := 0, Patch := 4472 } ∧
    "Chrome" ≠ UA_CHROME_MOBILE :=
  ⟨by decide, by decide⟩

/-- C6: the alternate router's match decision never consults the stored or
the incoming HTTP method: dispatch depends only on the request URI (first
conjunct, requests equal up to method dispatch identically), and
concretely a GET-registered pattern answers a matching POST request,
running its middleware and handler (second conjunct). -/
theorem c6_method_not_filtered :
    (∀ (routes : List iRoute) (r1 r2 : Request),
       r1.requestURI = r2.requestURI →
       AltRouter routes r1 = AltRouter routes r2) ∧
    AltRouter (ServiceRegister [numService])
        (requestFor "POST" "/articles/42") =
      [Action.middleware 5, Action.handler 7] := by
  constructor
  · intro routes r1 r2 h
    unfold AltRouter
    rw [h]
  · decide

/-- Witness for `c6_method_not_filtered`: a GET and a POST request with
the same URI dispatch identically. -/
theorem c6_method_witness :
    AltRouter (ServiceRegister [numService]) (requestFor "GET" "/articles/42") =
      AltRouter (ServiceRegister [numService])
        (requestFor "POST" "/articles/42") :=
  c6_method_not_filtered.1 (ServiceRegister [numService])
    (requestFor "GET" "/articles/42") (requestFor "POST" "/articles/42") rfl

/-- C7: every input string on which none of the user-agent patterns finds
a match classifies as the OTHER sentinel with all version fields zero
(first conjunct, universal; "curl/7.64" is such a string, second and third
conjuncts); a matching pattern with an absent optional capture
("Chrome/91.0 ...", group 4 unset) yields 0 for that field without
aborting; and in general the swallowed `ParseUint` yields 0 on every
absent or non-numeric capture text. -/
theorem c7_detectua_other_and_defaults :
    (∀ s : String, (∀ p ∈ uaList, reFind p.2 s.data = none) →
       DetectUA s = { Family := UA_OTHER, Major := 0, Minor := 0,
                      Patch := 0 }) ∧
    (∀ p ∈ uaList, reFind p.2 "curl/7.64".data = none) ∧
    DetectUA "curl/7.64" =
      { Family := UA_OTHER, Major := 0, Minor := 0, Patch := 0 } ∧
    DetectUA "Chrome/91.0 Safari/537.36" =
      { Family := "Chrome", Major := 91, Minor := 0, Patch := 0 } ∧
    (∀ cs : List Char,
       ¬ (cs ≠ [] ∧ cs.all Char.isDigit = true) → parseUint64 cs = 0) := by
  have hsent : ∀ s : String, (∀ p ∈ uaList, reFind p.2 s.data = none) →
      DetectUA s = { Family := UA_OTHER, Major := 0, Minor := 0,
                     Patch := 0 } := by
    intro s h
    simp only [DetectUA]
    have hnone : uaList.findSome?
        (fun p => (reFind p.2 s.data).map (fun m => m.2)) = none := by
      rw [List.findSome?_eq_none_iff]
      intro p hp
      rw [h p hp]
      rfl
    rw [hnone]
  refine ⟨hsent, by decide, by decide, by decide, ?_⟩
  intro cs h
  unfold parseUint64
  rw [if_neg h]

/-- Witness for `c7_detectua_other_and_defaults`: the universal sentinel
clause applied at the concrete non-matching input "curl/7.64", and the
non-numeric capture text "v2" parsing to 0. -/
theorem c7_defaults_witness :
    DetectUA "curl/7.64" =
      { Family := UA_OTHER, Major := 0, Minor := 0, Patch := 0 } ∧
    parseUint64 ['v', '2'] = 0 :=
  ⟨c7_detectua_other_and_defaults.1 "curl/7.64" (by decide),
   c7_detectua_other_and_defaults.2.2.2.2 ['v', '2'] (by decide)⟩

end Webserver
